import Mathlib

/-!
Shallow embedding of the analytics/dashboard aggregation layer of the
sports-management repository (files `analyticsService.ts`,
`dashboardService.ts`, `reportsService.ts`).

Modelling conventions:
* Firestore timestamps are modelled as integers.  Where the source works at
  day granularity (daily series, "7 days ago" windows) the integer denotes a
  day index; the arithmetic mirrors the source's date arithmetic.
* `getCountFromServer(query(...))` over a collection becomes `List.filter`
  followed by `List.length` over the modelled documents of that collection.
* JavaScript `Math.round` on a non-negative number rounds half up, i.e.
  `Math.round x = ⌊x + 1/2⌋`; we model it on ℚ.
* A failing Firestore query (handled by `.catch`) is modelled as `none` in an
  `Option`; a succeeding count query is `some n`.
* Falsy-default patterns such as `data.level || "Grassroots"` treat both a
  missing field and the empty string as falsy, which the model reproduces.
-/

/-- JavaScript `Math.round` on rationals: round half toward positive
infinity. -/
def jsRound (x : ℚ) : ℤ := ⌊x + 1/2⌋

/-- The percentage pattern used for `tasksCompleted` (dashboardService),
`completionRate` (reportsService / program performance):
`den > 0 ? Math.round((num / den) * 100) : 0`. -/
def computePercentage (num den : ℕ) : ℤ :=
  if 0 < den then jsRound ((num : ℚ) / (den : ℚ) * 100) else 0

/-- The clamped engagement percentage of `getUserEngagementMetrics`:
`total > 0 ? Math.min(100, Math.round((active / total) * 100)) : 0`. -/
def engagementPct (active total : ℕ) : ℤ :=
  if 0 < total then min 100 (jsRound ((active : ℚ) / (total : ℚ) * 100)) else 0

/-! ## Level distribution (`fetchLevelData`, analyticsService.ts) -/

structure LevelData where
  name : String
  value : ℕ
  color : String
deriving DecidableEq

/-- The effective level of an athlete document: `data.level || "Grassroots"`.
A missing field and the empty string are both falsy in JavaScript, so both
default to `"Grassroots"`. -/
def effLevel (level : Option String) : String :=
  match level with
  | none => "Grassroots"
  | some s => if s = "" then "Grassroots" else s

/-- Number of athletes whose effective level equals the given bucket name
(the source increments `levelCounts[level]` only when that key exists). -/
def countLevel (athletes : List (Option String)) (bucket : String) : ℕ :=
  (athletes.filter (fun a => effLevel a == bucket)).length

/-- `fetchLevelData`: athletes are represented by their optional `level`
field; the three buckets are initialised to 0 and an athlete is counted only
when its effective level is one of the three keys. -/
def fetchLevelData (athletes : List (Option String)) : List LevelData :=
  [ { name := "Grassroots", value := countLevel athletes "Grassroots", color := "#8884d8" },
    { name := "Semi-Pro", value := countLevel athletes "Semi-Pro", color := "#82ca9d" },
    { name := "Professional", value := countLevel athletes "Professional", color := "#ffc658" } ]

/-- An effective level is recognised when it is one of the three bucket
keys of `levelCounts`. -/
def recognizedLevel (s : String) : Bool :=
  s == "Grassroots" || s == "Semi-Pro" || s == "Professional"

/-- The 5-athlete scenario from the specification: levels
`["Pro","Pro","Semi-Pro","","Grassroots"]`. -/
def levelScenario : List (Option String) :=
  [some "Pro", some "Pro", some "Semi-Pro", some "", some "Grassroots"]

/-! ## Daily series (`getDaysArray` and the 30-day series of
`getAnalyticsData`, reportsService.ts) -/

/-- `getDaysArray(start, end)`: pushes one date per calendar day while
`dt <= end`, stepping one day at a time.  Days are modelled as integer day
indices. -/
def getDaysArray (start stop : ℤ) : List ℤ :=
  if h : start ≤ stop then start :: getDaysArray (start + 1) stop else []
termination_by (stop + 1 - start).toNat
decreasing_by omega

structure UserGrowthData where
  date : ℤ
  totalUsers : ℕ
  newUsers : ℕ
deriving DecidableEq

structure TaskCompletionData where
  date : ℤ
  completed : ℕ
  pending : ℕ
  overdue : ℕ
deriving DecidableEq

/-- A task document: `status`, `dueDate`, optional `completedAt`. -/
structure TaskDoc where
  status : String
  dueDate : ℤ
  completedAt : Option ℤ
deriving DecidableEq

/-- The `userGrowth` series of `getAnalyticsData`: for each day of
`getDaysArray(subDays(now, 29), now)`, `totalUsers` counts users created up
to the end of that day and `newUsers` counts users created within that day.
Users are represented by their `createdAt` day. -/
def userGrowthSeries (userCreatedAt : List ℤ) (now : ℤ) : List UserGrowthData :=
  (getDaysArray (now - 29) now).map (fun d =>
    { date := d,
      totalUsers := (userCreatedAt.filter (fun c => decide (c ≤ d))).length,
      newUsers := (userCreatedAt.filter (fun c => c == d)).length })

/-- The `taskCompletion` series of `getAnalyticsData`: per day, completed
tasks completed that day, pending/in-progress tasks due that day, and
pending/in-progress tasks overdue before that day. -/
def taskCompletionSeries (tasks : List TaskDoc) (now : ℤ) : List TaskCompletionData :=
  (getDaysArray (now - 29) now).map (fun d =>
    { date := d,
      completed := (tasks.filter (fun t =>
        t.status == "completed" && t.completedAt == some d)).length,
      pending := (tasks.filter (fun t =>
        (t.status == "pending" || t.status == "in-progress") && t.dueDate == d)).length,
      overdue := (tasks.filter (fun t =>
        (t.status == "pending" || t.status == "in-progress") && decide (t.dueDate < d))).length })

/-! ## Regional distribution (`fetchRegionalData`, analyticsService.ts) -/

structure RegionalData where
  name : String
  athletes : ℕ
  events : ℕ
deriving DecidableEq

/-- Effective location of a document: `data.location || "Unknown"` (missing
field and empty string are falsy). -/
def effLocation (location : Option String) : String :=
  match location with
  | none => "Unknown"
  | some s => if s = "" then "Unknown" else s

/-- The own, enumerable member names of `Object.prototype`.  For such a
location string `l`, reading `locationCounts[l]` on the plain object literal
`{}` yields the inherited member (a function, or the prototype itself for
`__proto__`), which is truthy; so `if (!locationCounts[location])` skips
initialisation, no own property is ever created under that key, the
increment lands on the inherited object, and the key never appears in
`Object.entries(locationCounts)`. -/
def protoKeys : List String :=
  ["constructor", "hasOwnProperty", "isPrototypeOf", "propertyIsEnumerable",
   "toLocaleString", "toString", "valueOf", "__proto__",
   "__defineGetter__", "__defineSetter__", "__lookupGetter__", "__lookupSetter__"]

def isProtoKey (s : String) : Bool := protoKeys.contains s

/-- Create-or-increment of the own property keyed `loc` in the
creation-ordered own-property table: a new key is appended (JS property
creation order), an existing key is updated in place. -/
def addOwn (isAthlete : Bool) : List RegionalData → String → List RegionalData
  | [], loc =>
      [ { name := loc, athletes := if isAthlete then 1 else 0,
          events := if isAthlete then 0 else 1 } ]
  | r :: rest, loc =>
      if r.name = loc then
        (if isAthlete then { r with athletes := r.athletes + 1 }
         else { r with events := r.events + 1 }) :: rest
      else r :: addOwn isAthlete rest loc

/-- One `forEach` step of `fetchRegionalData` over `locationCounts`: if the
location names an `Object.prototype` member, the `!locationCounts[location]`
guard sees the inherited truthy value and no own entry is created or
updated; otherwise the own entry is created or incremented. -/
def addCount (isAthlete : Bool) (own : List RegionalData) (loc : String) :
    List RegionalData :=
  if isProtoKey loc then own else addOwn isAthlete own loc

/-- Decimal parse of a character list (`none` on a non-digit). -/
def strToNatAux : List Char → ℕ → Option ℕ
  | [], acc => some acc
  | c :: cs, acc =>
      if 48 ≤ c.toNat ∧ c.toNat ≤ 57 then strToNatAux cs (acc * 10 + (c.toNat - 48))
      else none

/-- Decimal parse of a string (`none` when empty or containing a
non-digit). -/
def strToNat (s : String) : Option ℕ :=
  if s.data.isEmpty then none else strToNatAux s.data 0

/-- A canonical array-index property key (ECMAScript): the canonical decimal
string of an integer `0 ≤ n < 2^32 - 1`. -/
def isArrayIndexKey (s : String) : Bool :=
  match strToNat s with
  | some n => toString n == s && n < 4294967295
  | none => false

/-- Numeric value of an array-index key (0 for non-index keys). -/
def keyNat (s : String) : ℕ := (strToNat s).getD 0

/-- Insertion into a list sorted ascending by numeric key value (canonical
index keys have pairwise distinct values). -/
def insertAsc (r : RegionalData) : List RegionalData → List RegionalData
  | [] => [r]
  | x :: xs => if keyNat r.name < keyNat x.name then r :: x :: xs else x :: insertAsc r xs

def sortByIndexAsc (l : List RegionalData) : List RegionalData :=
  l.foldl (fun acc r => insertAsc r acc) []

/-- The `Object.entries` enumeration order over the own-property table:
array-index-like keys first, in ascending numeric order, then the remaining
string keys in property creation order. -/
def jsEntries (own : List RegionalData) : List RegionalData :=
  sortByIndexAsc (own.filter (fun r => isArrayIndexKey r.name)) ++
    own.filter (fun r => !isArrayIndexKey r.name)

/-- The own-property table of `locationCounts`: athletes are folded in
first, then events, as in the two `forEach` passes of `fetchRegionalData`. -/
def regionalOwn (athletes events : List (Option String)) : List RegionalData :=
  events.foldl (fun acc e => addCount false acc (effLocation e))
    (athletes.foldl (fun acc a => addCount true acc (effLocation a)) [])

/-- `Object.entries(locationCounts)` as consumed by the map/sort/slice
pipeline of `fetchRegionalData`. -/
def regionalEntries (athletes events : List (Option String)) : List RegionalData :=
  jsEntries (regionalOwn athletes events)

/-- Stable insertion into a list sorted by descending athlete count: the new
entry goes after every entry with an athlete count ≥ its own, matching the
comparator `(a, b) => b.athletes - a.athletes` under a stable sort. -/
def insertDesc (r : RegionalData) : List RegionalData → List RegionalData
  | [] => [r]
  | x :: xs => if x.athletes < r.athletes then r :: x :: xs else x :: insertDesc r xs

/-- Stable sort by descending athlete count (JavaScript `Array.prototype.sort`
is stable). -/
def sortDesc (l : List RegionalData) : List RegionalData :=
  l.foldl (fun acc r => insertDesc r acc) []

/-- `fetchRegionalData`: group both collections by effective location, sort
descending by athlete count, keep the top 10. -/
def fetchRegionalData (athletes events : List (Option String)) : List RegionalData :=
  (sortDesc (regionalEntries athletes events)).take 10

/-! ## Growth series (`fetchGrowthData`, analyticsService.ts) -/

structure GrowthData where
  month : String
  athletes : ℕ
  events : ℕ
deriving DecidableEq

def monthNames : List String :=
  ["Jan", "Feb", "Mar", "Apr", "May", "Jun", "Jul", "Aug", "Sep", "Oct", "Nov", "Dec"]

/-- The six window months, oldest first: for `i = 5 .. 0` the month
`now.getMonth() - i` modulo 12. -/
def windowMonths (nowMonth : ℕ) : List ℕ :=
  (List.range 6).map (fun j => (nowMonth + 7 + j) % 12)

/-- Raw per-month counts: documents are represented by their `createdAt`
month-of-year (`date.getMonth()`, 0–11); each window bucket counts the
documents whose month matches its key. -/
def rawMonthly (nowMonth : ℕ) (athMonths evMonths : List ℕ) : List (String × ℕ × ℕ) :=
  (windowMonths nowMonth).map (fun m =>
    (monthNames.getD m "",
     (athMonths.filter (fun d => d == m)).length,
     (evMonths.filter (fun d => d == m)).length))

/-- The cumulative pass of `fetchGrowthData`: running sums of the athlete and
event counts across the ordered buckets. -/
def cumulate (a e : ℕ) : List (String × ℕ × ℕ) → List GrowthData
  | [] => []
  | (m, ca, ce) :: rest =>
      { month := m, athletes := a + ca, events := e + ce } :: cumulate (a + ca) (e + ce) rest

/-- `fetchGrowthData`: raw monthly counts converted to cumulative counts. -/
def fetchGrowthData (nowMonth : ℕ) (athMonths evMonths : List ℕ) : List GrowthData :=
  cumulate 0 0 (rawMonthly nowMonth athMonths evMonths)

/-! ## Dashboard statistics (`fetchDashboardStats`, dashboardService.ts) -/

/-- The contact-submissions fallback chain of `fetchDashboardStats`:
`getCountFromServer("contactSubmissions").catch(() => "contacts").catch(() =>
"messages").catch(() => 0)`.  `some n` models a query succeeding with count
`n`, `none` a failing query. -/
def contactSubmissionsCount (primary contacts messages : Option ℕ) : ℕ :=
  match primary with
  | some n => n
  | none =>
    match contacts with
    | some n => n
    | none =>
      match messages with
      | some n => n
      | none => 0

structure DashboardStats where
  totalUsers : ℕ
  activePrograms : ℕ
  upcomingEvents : ℕ
  tasksCompleted : ℤ
  totalCertificates : ℕ
  totalAdmissions : ℕ
  totalBlogPosts : ℕ
  totalAthletes : ℕ
  scoutedAthletes : ℕ
  activeTrainingPrograms : ℕ
  recentRegistrations : ℕ
  contactSubmissions : ℕ
deriving DecidableEq

/-- The collections read by `fetchDashboardStats`.  Users and events are
represented by their `createdAt` / `startDate` day; programs by their
`(status, type)` pair; tasks and athletes by their `status`; collections that
are only counted wholesale by their size; the three contact candidates by an
optional count (`none` = the query fails). -/
structure DashDb where
  users : List ℤ
  programs : List (String × String)
  events : List ℤ
  tasks : List String
  certificates : ℕ
  admissions : ℕ
  blogPosts : ℕ
  athletes : List String
  contactsPrimary : Option ℕ
  contactsSecondary : Option ℕ
  contactsTertiary : Option ℕ

/-- `fetchDashboardStats` (success path): parallel count queries reduced into
a `DashboardStats` record.  `upcomingEvents` falls back to the total event
count when no event starts at or after `now`; `recentRegistrations` counts
users created in the last 7 days; `tasksCompleted` is the completed-task
percentage. -/
def fetchDashboardStats (db : DashDb) (now : ℤ) : DashboardStats :=
  let tasksCount := db.tasks.length
  let completedTasks := (db.tasks.filter (fun s => s == "completed")).length
  let upcoming := (db.events.filter (fun s => decide (now ≤ s))).length
  { totalUsers := db.users.length,
    activePrograms := (db.programs.filter (fun p => p.1 == "active")).length,
    upcomingEvents := if upcoming == 0 then db.events.length else upcoming,
    tasksCompleted := computePercentage completedTasks tasksCount,
    totalCertificates := db.certificates,
    totalAdmissions := db.admissions,
    totalBlogPosts := db.blogPosts,
    totalAthletes := db.athletes.length,
    scoutedAthletes := (db.athletes.filter (fun s => s == "scouted")).length,
    activeTrainingPrograms := (db.programs.filter (fun p => p.2 == "training")).length,
    recentRegistrations := (db.users.filter (fun c => decide (now - 7 ≤ c))).length,
    contactSubmissions :=
      contactSubmissionsCount db.contactsPrimary db.contactsSecondary db.contactsTertiary }

/-- A `DashDb` in which every collection is empty and every contact candidate
fails. -/
def emptyDashDb : DashDb :=
  { users := [], programs := [], events := [], tasks := [],
    certificates := 0, admissions := 0, blogPosts := 0, athletes := [],
    contactsPrimary := none, contactsSecondary := none, contactsTertiary := none }

/-! ## Analytics data (`getAnalyticsData`, reportsService.ts) -/

/-- A user document: `createdAt`, `lastActiveAt`, `status`. -/
structure UserDoc where
  createdAt : ℤ
  lastActiveAt : ℤ
  status : String
deriving DecidableEq

structure AnalyticsData where
  totalUsers : ℕ
  activeUsers : ℕ
  totalPrograms : ℕ
  activePrograms : ℕ
  totalEvents : ℕ
  upcomingEvents : ℕ
  completionRate : ℤ
  completedTasks : ℕ
  totalTasks : ℕ
  userGrowth : List UserGrowthData
  taskCompletion : List TaskCompletionData
  lastUpdated : ℤ

/-- The collections read by `getAnalyticsData`: user documents, program
statuses, event start days, task documents. -/
structure AnalyticsDb where
  users : List UserDoc
  programs : List String
  events : List ℤ
  tasks : List TaskDoc

/-- The `fetchData` body of `getAnalyticsData`: count queries plus the two
30-day series, with `lastUpdated := now` (`new Date()` at computation
time). -/
def getAnalyticsDataFetch (db : AnalyticsDb) (now : ℤ) : AnalyticsData :=
  let totalTasks := db.tasks.length
  let completedTasks := (db.tasks.filter (fun t => t.status == "completed")).length
  { totalUsers := db.users.length,
    activeUsers := (db.users.filter (fun u =>
      decide (now - 30 ≤ u.lastActiveAt) && u.status == "active")).length,
    totalPrograms := db.programs.length,
    activePrograms := (db.programs.filter (fun s => s == "active")).length,
    totalEvents := db.events.length,
    upcomingEvents := (db.events.filter (fun s => decide (now ≤ s))).length,
    completionRate := computePercentage completedTasks totalTasks,
    completedTasks := completedTasks,
    totalTasks := totalTasks,
    userGrowth := userGrowthSeries (db.users.map (fun u => u.createdAt)) now,
    taskCompletion := taskCompletionSeries db.tasks now,
    lastUpdated := now }

/-! ## User engagement (`getUserEngagementMetrics`, reportsService.ts) -/

/-- A session document: `endTime` and `duration` in seconds. -/
structure SessionDoc where
  endTime : ℤ
  duration : ℕ
deriving DecidableEq

structure UserEngagementMetrics where
  weeklyEngagement : ℤ
  monthlyEngagement : ℤ
  activeLastWeek : ℕ
  activeLastMonth : ℕ
  averageSessionDuration : ℤ
  totalSessions : ℕ
  lastUpdated : ℤ

/-- The `fetchData` body of `getUserEngagementMetrics`: active-user counts
over 7- and 30-day windows, session statistics over the 30-day window, and
the two clamped engagement percentages. -/
def getUserEngagementMetricsFetch (users : List UserDoc) (sessions : List SessionDoc)
    (now : ℤ) : UserEngagementMetrics :=
  let activeWeek := (users.filter (fun u =>
    decide (now - 7 ≤ u.lastActiveAt) && u.status == "active")).length
  let activeMonth := (users.filter (fun u =>
    decide (now - 30 ≤ u.lastActiveAt) && u.status == "active")).length
  let monthSessions := sessions.filter (fun s => decide (now - 30 ≤ s.endTime))
  let totalSessions := monthSessions.length
  let totalDuration := (monthSessions.map (fun s => s.duration)).sum
  let totalUsers := users.length
  { weeklyEngagement := engagementPct activeWeek totalUsers,
    monthlyEngagement := engagementPct activeMonth totalUsers,
    activeLastWeek := activeWeek,
    activeLastMonth := activeMonth,
    averageSessionDuration :=
      if 0 < totalSessions then
        jsRound ((totalDuration : ℚ) / (totalSessions : ℚ) / 60)
      else 0,
    totalSessions := totalSessions,
    lastUpdated := now }

/-! ## Program performance (`getProgramPerformanceMetrics`, reportsService.ts) -/

structure ProgramDoc where
  id : String
  name : String
  status : String
  startDate : ℤ
  endDate : ℤ
deriving DecidableEq

structure ProgramPerformance where
  id : String
  name : String
  status : String
  startDate : ℤ
  endDate : ℤ
  enrollments : ℕ
  completions : ℕ
  completionRate : ℤ
  rating : ℕ
  lastUpdated : ℤ
deriving DecidableEq

/-- The `fetchData` body of `getProgramPerformanceMetrics`: enrollment and
completion documents are represented by their resolved parent program id
(documents without a resolvable parent are excluded upstream). -/
def getProgramPerformanceFetch (programs : List ProgramDoc)
    (enrollments completions : List String) (now : ℤ) : List ProgramPerformance :=
  programs.map (fun p =>
    let e := (enrollments.filter (fun x => x == p.id)).length
    let c := (completions.filter (fun x => x == p.id)).length
    { id := p.id, name := p.name, status := p.status,
      startDate := p.startDate, endDate := p.endDate,
      enrollments := e, completions := c,
      completionRate := computePercentage c e,
      rating := 0, lastUpdated := now })

/-! ## Real-time subscription registry (reportsService.ts)

`getAnalyticsData(callback)` attaches an `onSnapshot` listener, stores its
`Unsubscribe` in the module-level `subscriptions` map under the key
`` `analytics-${Date.now()}` ``, and returns a cleanup closure that looks the
key up, calls the stored unsubscribe if present, and deletes the entry.
The world tracks the set of attached listeners (each `onSnapshot` call yields
a fresh listener identity) and the registry as a key→listener map. -/

structure SubWorld where
  nextListener : ℕ
  attached : List ℕ
  registry : List (String × ℕ)
deriving DecidableEq

def emptySubWorld : SubWorld :=
  { nextListener := 0, attached := [], registry := [] }

/-- The subscription identifier `` `analytics-${Date.now()}` ``. -/
def subId (now : ℕ) : String := "analytics-" ++ toString now

/-- Registering a subscription in `getAnalyticsData(callback)`: a fresh
listener is attached and `subscriptions.set(subscriptionId, unsubscribe)`
stores it under `subId now` (overwriting any entry already stored under the
same key, as `Map.set` does).  Returns the new world and the key the returned
cleanup closure captured. -/
def subscribeAnalytics (w : SubWorld) (now : ℕ) : SubWorld × String :=
  let sid := subId now
  let lid := w.nextListener
  ({ nextListener := lid + 1,
     attached := lid :: w.attached,
     registry := (sid, lid) :: w.registry.filter (fun p => p.1 ≠ sid) }, sid)

/-- Running a returned cleanup closure: `const unsub = subscriptions.get(id);
if (unsub) { unsub(); subscriptions.delete(id); }`.  Detaching a listener
removes it from the attached set. -/
def runCleanup (w : SubWorld) (sid : String) : SubWorld :=
  match w.registry.find? (fun p => p.1 == sid) with
  | some entry =>
      { w with attached := w.attached.filter (fun l => l ≠ entry.2),
               registry := w.registry.filter (fun p => p.1 ≠ sid) }
  | none => w

/-- Registry lookup, for stating claims. -/
def registryLookup (w : SubWorld) (sid : String) : Option ℕ :=
  (w.registry.find? (fun p => p.1 == sid)).map (fun p => p.2)

/-! ## Rounding and percentage lemmas -/

theorem jsRound_nonneg (x : ℚ) (hx : 0 ≤ x) : 0 ≤ jsRound x := by
  rw [jsRound, Int.le_floor]
  push_cast
  linarith

theorem jsRound_le_of (x : ℚ) (n : ℤ) (h : x ≤ n) : jsRound x ≤ n := by
  have hlt : jsRound x < n + 1 := by
    rw [jsRound, Int.floor_lt]
    push_cast
    linarith
  omega

theorem jsRound_near (x : ℚ) : |(jsRound x : ℚ) - x| ≤ 1/2 := by
  have h1 : (jsRound x : ℚ) ≤ x + 1/2 := Int.floor_le (x + 1/2)
  have h2 : x + 1/2 < (jsRound x : ℚ) + 1 := Int.lt_floor_add_one (x + 1/2)
  rw [abs_le]
  constructor <;> linarith

theorem engagementPct_nonneg (a t : ℕ) : 0 ≤ engagementPct a t := by
  rw [engagementPct]
  split
  · exact le_min (by norm_num) (jsRound_nonneg _ (by positivity))
  · exact le_refl 0

theorem engagementPct_le_100 (a t : ℕ) : engagementPct a t ≤ 100 := by
  rw [engagementPct]
  split
  · exact min_le_left _ _
  · norm_num

theorem engagementPct_zero_total (a : ℕ) : engagementPct a 0 = 0 := by
  simp [engagementPct]

/-- C3: for `0 ≤ num ≤ den` the percentage used for `tasksCompleted` and
`completionRate` is an integer in `[0, 100]` within `1/2` of the exact value
`num/den * 100` (nearest-integer rounding, half rounded up), and a zero
denominator yields exactly `0` for every numerator. -/
theorem C3_computePercentage (num den : ℕ) :
    computePercentage num 0 = 0 ∧
    (0 < den →
      |(computePercentage num den : ℚ) - (num : ℚ) / (den : ℚ) * 100| ≤ 1/2) ∧
    (0 < den → num ≤ den →
      0 ≤ computePercentage num den ∧ computePercentage num den ≤ 100) := by
  refine ⟨by simp [computePercentage], ?_, ?_⟩
  · intro hden
    rw [computePercentage, if_pos hden]
    exact jsRound_near _
  · intro hden hle
    rw [computePercentage, if_pos hden]
    refine ⟨jsRound_nonneg _ (by positivity), ?_⟩
    apply jsRound_le_of
    have hd : (0 : ℚ) < (den : ℚ) := by exact_mod_cast hden
    have h1 : (num : ℚ) / (den : ℚ) ≤ 1 :=
      (div_le_one hd).mpr (by exact_mod_cast hle)
    push_cast
    nlinarith

theorem C3_computePercentage_witness :
    computePercentage 1 0 = 0 ∧
    |(computePercentage 1 3 : ℚ) - (1 : ℚ) / (3 : ℚ) * 100| ≤ 1/2 ∧
    (0 ≤ computePercentage 1 3 ∧ computePercentage 1 3 ≤ 100) :=
  ⟨(C3_computePercentage 1 0).1,
   (C3_computePercentage 1 3).2.1 (by norm_num),
   (C3_computePercentage 1 3).2.2 (by norm_num) (by norm_num)⟩

/-- C10: both engagement fields of `getUserEngagementMetrics` are integers in
`[0, 100]` — the `Math.min(100, ·)` clamp keeps them at most 100 even when
the count of recently-active users exceeds the total — and both are 0 when
there are no users. -/
theorem C10_engagement_clamped (users : List UserDoc) (sessions : List SessionDoc)
    (now : ℤ) :
    0 ≤ (getUserEngagementMetricsFetch users sessions now).weeklyEngagement ∧
    (getUserEngagementMetricsFetch users sessions now).weeklyEngagement ≤ 100 ∧
    0 ≤ (getUserEngagementMetricsFetch users sessions now).monthlyEngagement ∧
    (getUserEngagementMetricsFetch users sessions now).monthlyEngagement ≤ 100 ∧
    (users = [] →
      (getUserEngagementMetricsFetch users sessions now).weeklyEngagement = 0 ∧
      (getUserEngagementMetricsFetch users sessions now).monthlyEngagement = 0) := by
  refine ⟨engagementPct_nonneg _ _, engagementPct_le_100 _ _,
    engagementPct_nonneg _ _, engagementPct_le_100 _ _, ?_⟩
  rintro rfl
  constructor <;>
    simp [getUserEngagementMetricsFetch, engagementPct_zero_total]

theorem C10_engagement_clamped_witness :
    0 ≤ (getUserEngagementMetricsFetch [] [] 0).weeklyEngagement ∧
    (getUserEngagementMetricsFetch [] [] 0).weeklyEngagement = 0 :=
  ⟨(C10_engagement_clamped [] [] 0).1,
   ((C10_engagement_clamped [] [] 0).2.2.2.2 rfl).1⟩

/-! ## Level distribution: C1 -/

theorem countLevel_sum (athletes : List (Option String)) :
    countLevel athletes "Grassroots" + countLevel athletes "Semi-Pro" +
      countLevel athletes "Professional" =
      (athletes.filter (fun a => recognizedLevel (effLevel a))).length := by
  induction athletes with
  | nil => rfl
  | cons a t ih =>
    simp only [countLevel, recognizedLevel, List.filter_cons] at ih ⊢
    by_cases h1 : effLevel a == "Grassroots" <;>
      by_cases h2 : effLevel a == "Semi-Pro" <;>
        by_cases h3 : effLevel a == "Professional" <;>
          simp_all <;> omega

/-- C1 counterexample: on the specification's own 5-athlete scenario
`["Pro","Pro","Semi-Pro","","Grassroots"]` the bucket values sum to 3, not to
the athlete count 5, and the distribution is not `{Grassroots: 2, Semi-Pro:
1, Professional: 2}` — the unrecognized level `"Pro"` is dropped, not
defaulted to Grassroots (only a missing/empty level is defaulted). -/
theorem C1_counterexample :
    ((fetchLevelData levelScenario).map (fun l => l.value)).sum ≠ levelScenario.length ∧
    (fetchLevelData levelScenario).map (fun l => l.value) ≠ [2, 1, 2] ∧
    (fetchLevelData levelScenario).map (fun l => l.value) = [2, 1, 0] := by decide

/-- C1 amended: `fetchLevelData` always returns exactly the 3 buckets
Grassroots, Semi-Pro, Professional; a missing or empty level defaults to
Grassroots; an unrecognized non-empty level is not attributed to any bucket,
so the values sum to the number of athletes whose effective level is
recognized (not to the total athlete count); on the 5-athlete scenario the
result is {Grassroots: 2, Semi-Pro: 1, Professional: 0}. -/
theorem C1_fetchLevelData :
    (∀ athletes : List (Option String),
      (fetchLevelData athletes).map (fun l => l.name) =
        ["Grassroots", "Semi-Pro", "Professional"] ∧
      ((fetchLevelData athletes).map (fun l => l.value)).sum =
        (athletes.filter (fun a => recognizedLevel (effLevel a))).length) ∧
    (fetchLevelData levelScenario).map (fun l => l.value) = [2, 1, 0] := by
  refine ⟨fun athletes => ⟨rfl, ?_⟩, by decide⟩
  have h := countLevel_sum athletes
  simp only [fetchLevelData, List.map_cons, List.map_nil, List.sum_cons, List.sum_nil]
  omega

/-! ## Computed-at timestamps: C2 -/

/-- C2 counterexample: `DashboardStats` carries no "computed at" field — no
function of the returned record can recover the computation time, because two
computations of `fetchDashboardStats` at different times over the same (empty)
collections return identical records. -/
theorem C2_counterexample :
    ¬ ∃ f : DashboardStats → ℤ,
        ∀ (db : DashDb) (now : ℤ), f (fetchDashboardStats db now) = now := by
  rintro ⟨f, hf⟩
  have h0 := hf emptyDashDb 0
  have h1 := hf emptyDashDb 1
  have he : fetchDashboardStats emptyDashDb 0 = fetchDashboardStats emptyDashDb 1 := by decide
  rw [he] at h0
  omega

/-- C2 amended: the snapshots of `getAnalyticsData`, `getUserEngagementMetrics`
and every `ProgramPerformance` record carry a `lastUpdated` field set to the
computation time; `DashboardStats` from `fetchDashboardStats` carries no such
field. -/
theorem C2_lastUpdated :
    (∀ (db : AnalyticsDb) (now : ℤ), (getAnalyticsDataFetch db now).lastUpdated = now) ∧
    (∀ (users : List UserDoc) (sessions : List SessionDoc) (now : ℤ),
      (getUserEngagementMetricsFetch users sessions now).lastUpdated = now) ∧
    (∀ (programs : List ProgramDoc) (enrollments completions : List String) (now : ℤ),
      ∀ r ∈ getProgramPerformanceFetch programs enrollments completions now,
        r.lastUpdated = now) := by
  refine ⟨fun db now => rfl, fun u s now => rfl, ?_⟩
  intro ps e c now r hr
  rw [getProgramPerformanceFetch] at hr
  obtain ⟨p, hp, rfl⟩ := List.mem_map.mp hr
  rfl

theorem C2_lastUpdated_witness :
    ({ id := "a", name := "n", status := "active", startDate := 0, endDate := 1,
       enrollments := 0, completions := 0, completionRate := 0, rating := 0,
       lastUpdated := 7 } : ProgramPerformance).lastUpdated = 7 :=
  C2_lastUpdated.2.2 [⟨"a", "n", "active", 0, 1⟩] [] [] 7 _ (by decide)

/-! ## Contact-submissions fallback: C7 -/

/-- C7 counterexample: the chain can report 0 even though not every candidate
failed — a candidate that succeeds with 0 documents also yields 0, so "0 only
if every candidate fails" is false as stated. -/
theorem C7_counterexample :
    ¬ (∀ primary contacts messages : Option ℕ,
        contactSubmissionsCount primary contacts messages = 0 →
          primary = none ∧ contacts = none ∧ messages = none) := by
  intro h
  rcases h (some 0) (some 3) (some 3) rfl with ⟨h1, -, -⟩
  exact Option.noConfusion h1

/-- C7 amended: `fetchDashboardStats` tries the 3 collections
`contactSubmissions`, `contacts`, `messages` in priority order with
first-success-wins semantics; the hardcoded default 0 is used exactly when
all three fail (though a succeeding candidate may itself report a count of
0); in particular, when the primary query fails and the first fallback
succeeds with 3 documents the reported count is 3, not 0. -/
theorem C7_contactFallback :
    (∀ (n : ℕ) (contacts messages : Option ℕ),
      contactSubmissionsCount (some n) contacts messages = n) ∧
    (∀ (n : ℕ) (messages : Option ℕ),
      contactSubmissionsCount none (some n) messages = n) ∧
    (∀ n : ℕ, contactSubmissionsCount none none (some n) = n) ∧
    contactSubmissionsCount none none none = 0 ∧
    (∀ db : DashDb, db.contactsPrimary = none → db.contactsSecondary = some 3 →
      (fetchDashboardStats db 0).contactSubmissions = 3) := by
  refine ⟨fun n c m => rfl, fun n m => rfl, fun n => rfl, rfl, ?_⟩
  intro db h1 h2
  show contactSubmissionsCount db.contactsPrimary db.contactsSecondary db.contactsTertiary = 3
  rw [h1, h2]
  rfl

theorem C7_contactFallback_witness :
    (fetchDashboardStats { emptyDashDb with contactsSecondary := some 3 } 0).contactSubmissions = 3 :=
  C7_contactFallback.2.2.2.2 { emptyDashDb with contactsSecondary := some 3 } rfl rfl

/-! ## Daily series: C4 -/

theorem getDaysArray_eq_range :
    ∀ (n : ℕ) (s e : ℤ), (e + 1 - s).toNat = n →
      getDaysArray s e = (List.range n).map (fun i : ℕ => s + (i : ℤ)) := by
  intro n
  induction n with
  | zero =>
    intro s e h
    rw [getDaysArray, dif_neg (by omega)]
    simp
  | succ n ih =>
    intro s e h
    rw [getDaysArray, dif_pos (by omega), ih (s + 1) e (by omega),
      List.range_succ_eq_map]
    simp only [List.map_cons, List.map_map, Nat.cast_zero, add_zero]
    congr 1
    apply List.map_congr_left
    intro i hi
    simp only [Function.comp_apply]
    push_cast
    ring

theorem getDaysArray_closed (s e : ℤ) :
    getDaysArray s e = (List.range (e + 1 - s).toNat).map (fun i : ℕ => s + (i : ℤ)) :=
  getDaysArray_eq_range _ s e rfl

theorem length_getDaysArray (s e : ℤ) :
    (getDaysArray s e).length = (e + 1 - s).toNat := by
  rw [getDaysArray_closed]
  simp

theorem pairwise_getDaysArray (s e : ℤ) :
    (getDaysArray s e).Pairwise (· < ·) := by
  rw [getDaysArray_closed]
  refine List.pairwise_map.mpr ((List.pairwise_lt_range _).imp ?_)
  intro a b hab
  omega

/-- C4: the 30-day `userGrowth` and `taskCompletion` series of
`getAnalyticsData` have exactly one entry per calendar day of the inclusive
window `[now - 29, now]` — 30 entries, consecutive dates in ascending order
with no gaps — and a day with no matching documents appears with value 0
rather than being omitted. -/
theorem C4_daily_series (db : AnalyticsDb) (now : ℤ) :
    (getAnalyticsDataFetch db now).userGrowth.length = 30 ∧
    (getAnalyticsDataFetch db now).taskCompletion.length = 30 ∧
    (getAnalyticsDataFetch db now).userGrowth.map (fun x => x.date) =
      (List.range 30).map (fun i : ℕ => now - 29 + (i : ℤ)) ∧
    (getAnalyticsDataFetch db now).taskCompletion.map (fun x => x.date) =
      (List.range 30).map (fun i : ℕ => now - 29 + (i : ℤ)) ∧
    (getAnalyticsDataFetch db now).userGrowth.Pairwise (fun x y => x.date < y.date) ∧
    (getAnalyticsDataFetch db now).taskCompletion.Pairwise (fun x y => x.date < y.date) ∧
    (∀ x ∈ (getAnalyticsDataFetch db now).userGrowth,
      (∀ u ∈ db.users, u.createdAt ≠ x.date) → x.newUsers = 0) ∧
    (∀ x ∈ (getAnalyticsDataFetch db now).taskCompletion,
      (∀ t ∈ db.tasks, t.dueDate ≠ x.date) → x.pending = 0) := by
  have hug : (getAnalyticsDataFetch db now).userGrowth =
      userGrowthSeries (db.users.map (fun u => u.createdAt)) now := rfl
  have htc : (getAnalyticsDataFetch db now).taskCompletion =
      taskCompletionSeries db.tasks now := rfl
  have h30 : (now + 1 - (now - 29)).toNat = 30 := by omega
  have hdays : getDaysArray (now - 29) now =
      (List.range 30).map (fun i : ℕ => now - 29 + (i : ℤ)) := by
    rw [getDaysArray_closed, h30]
  refine ⟨?_, ?_, ?_, ?_, ?_, ?_, ?_, ?_⟩
  · rw [hug, userGrowthSeries, List.length_map, length_getDaysArray, h30]
  · rw [htc, taskCompletionSeries, List.length_map, length_getDaysArray, h30]
  · rw [hug, userGrowthSeries, List.map_map, ← hdays]
    exact List.map_id' _
  · rw [htc, taskCompletionSeries, List.map_map, ← hdays]
    exact List.map_id' _
  · rw [hug, userGrowthSeries]
    exact List.pairwise_map.mpr (pairwise_getDaysArray _ _)
  · rw [htc, taskCompletionSeries]
    exact List.pairwise_map.mpr (pairwise_getDaysArray _ _)
  · intro x hx h0
    rw [hug, userGrowthSeries] at hx
    obtain ⟨d, hd, rfl⟩ := List.mem_map.mp hx
    show (List.filter (fun c => c == d) (db.users.map (fun u => u.createdAt))).length = 0
    rw [← List.countP_eq_length_filter]
    rw [List.countP_eq_zero]
    intro c hc
    obtain ⟨u, hu, rfl⟩ := List.mem_map.mp hc
    simpa using h0 u hu
  · intro x hx h0
    rw [htc, taskCompletionSeries] at hx
    obtain ⟨d, hd, rfl⟩ := List.mem_map.mp hx
    show (List.filter (fun t =>
      (t.status == "pending" || t.status == "in-progress") && t.dueDate == d) db.tasks).length = 0
    rw [← List.countP_eq_length_filter]
    rw [List.countP_eq_zero]
    intro t ht
    have := h0 t ht
    simp [this]

theorem C4_daily_series_witness :
    (getAnalyticsDataFetch ⟨[], [], [], []⟩ 0).userGrowth.length = 30 ∧
    ({ date := -29, totalUsers := 0, newUsers := 0 } : UserGrowthData).newUsers = 0 := by
  refine ⟨(C4_daily_series ⟨[], [], [], []⟩ 0).1, ?_⟩
  apply (C4_daily_series ⟨[], [], [], []⟩ 0).2.2.2.2.2.2.1
  · show _ ∈ userGrowthSeries [] 0
    rw [userGrowthSeries]
    apply List.mem_map.mpr
    refine ⟨-29, ?_, rfl⟩
    rw [getDaysArray, dif_pos (by omega)]
    exact List.mem_cons_self _ _
  · intro u hu
    simp at hu

/-! ## Growth series: C6 -/

theorem cumulate_length (l : List (String × ℕ × ℕ)) :
    ∀ a e, (cumulate a e l).length = l.length := by
  induction l with
  | nil => intro a e; rfl
  | cons hd t ih =>
    intro a e
    obtain ⟨m, ca, ce⟩ := hd
    simp [cumulate, ih]

theorem cumulate_get (l : List (String × ℕ × ℕ)) :
    ∀ (a e i : ℕ) (h : i < (cumulate a e l).length),
      ((cumulate a e l).get ⟨i, h⟩).athletes =
        a + ((l.take (i + 1)).map (fun x => x.2.1)).sum ∧
      ((cumulate a e l).get ⟨i, h⟩).events =
        e + ((l.take (i + 1)).map (fun x => x.2.2)).sum := by
  induction l with
  | nil =>
    intro a e i h
    simp [cumulate] at h
  | cons hd t ih =>
    intro a e i h
    obtain ⟨m, ca, ce⟩ := hd
    cases i with
    | zero => simp [cumulate]
    | succ i =>
      have h' : i < (cumulate (a + ca) (e + ce) t).length := by
        simpa [cumulate] using h
      have := ih (a + ca) (e + ce) i h'
      simp only [cumulate, List.get_cons_succ, List.take_succ_cons, List.map_cons,
        List.sum_cons] at *
      omega

theorem cumulate_head (l : List (String × ℕ × ℕ)) (a e : ℕ) :
    ∀ x ∈ (cumulate a e l).head?, a ≤ x.athletes ∧ e ≤ x.events := by
  cases l with
  | nil => simp [cumulate]
  | cons hd t =>
    obtain ⟨m, ca, ce⟩ := hd
    simp [cumulate]

theorem cumulate_chain (l : List (String × ℕ × ℕ)) :
    ∀ a e, List.Chain' (fun x y => x.athletes ≤ y.athletes ∧ x.events ≤ y.events)
      (cumulate a e l) := by
  induction l with
  | nil => intro a e; simp [cumulate]
  | cons hd t ih =>
    intro a e
    obtain ⟨m, ca, ce⟩ := hd
    rw [cumulate, List.chain'_cons']
    refine ⟨?_, ih (a + ca) (e + ce)⟩
    intro y hy
    have := cumulate_head t (a + ca) (e + ce) y hy
    constructor <;> simp <;> omega

/-- C6: in the 6-month growth series of `fetchGrowthData`, the athlete and
event values are running cumulative sums of the raw per-month counts across
the ordered months, and both sequences are non-decreasing across the buckets
for every input. -/
theorem C6_fetchGrowthData (nowMonth : ℕ) (athMonths evMonths : List ℕ) :
    (∀ i (h : i < (fetchGrowthData nowMonth athMonths evMonths).length),
      ((fetchGrowthData nowMonth athMonths evMonths).get ⟨i, h⟩).athletes =
        (((rawMonthly nowMonth athMonths evMonths).take (i + 1)).map
          (fun x => x.2.1)).sum ∧
      ((fetchGrowthData nowMonth athMonths evMonths).get ⟨i, h⟩).events =
        (((rawMonthly nowMonth athMonths evMonths).take (i + 1)).map
          (fun x => x.2.2)).sum) ∧
    List.Chain' (fun x y => x.athletes ≤ y.athletes ∧ x.events ≤ y.events)
      (fetchGrowthData nowMonth athMonths evMonths) := by
  constructor
  · intro i h
    have := cumulate_get (rawMonthly nowMonth athMonths evMonths) 0 0 i h
    simpa [fetchGrowthData] using this
  · exact cumulate_chain _ 0 0

theorem C6_fetchGrowthData_witness :
    ((fetchGrowthData 5 [5, 5, 4] [0]).get ⟨5, by decide⟩).athletes =
      (((rawMonthly 5 [5, 5, 4] [0]).take 6).map (fun x => x.2.1)).sum :=
  ((C6_fetchGrowthData 5 [5, 5, 4] [0]).1 5 (by decide)).1

/-! ## Regional distribution: C5 -/

theorem mem_insertDesc (y r : RegionalData) (l : List RegionalData) :
    y ∈ insertDesc r l ↔ y = r ∨ y ∈ l := by
  induction l with
  | nil => simp [insertDesc]
  | cons x xs ih =>
    rw [insertDesc]
    split
    · simp [List.mem_cons]
    · simp only [List.mem_cons, ih]
      tauto

theorem length_insertDesc (r : RegionalData) (l : List RegionalData) :
    (insertDesc r l).length = l.length + 1 := by
  induction l with
  | nil => rfl
  | cons x xs ih =>
    rw [insertDesc]
    split
    · rfl
    · simp [ih]

theorem insertDesc_pairwise (r : RegionalData) (l : List RegionalData)
    (h : l.Pairwise (fun a b => b.athletes ≤ a.athletes)) :
    (insertDesc r l).Pairwise (fun a b => b.athletes ≤ a.athletes) := by
  induction l with
  | nil => simp [insertDesc]
  | cons x xs ih =>
    rw [List.pairwise_cons] at h
    obtain ⟨hx, hxs⟩ := h
    rw [insertDesc]
    split
    · rename_i hlt
      rw [List.pairwise_cons]
      refine ⟨?_, List.pairwise_cons.mpr ⟨hx, hxs⟩⟩
      intro y hy
      rcases List.mem_cons.mp hy with rfl | hy'
      · omega
      · have := hx y hy'
        omega
    · rename_i hge
      rw [List.pairwise_cons]
      refine ⟨?_, ih hxs⟩
      intro y hy
      rcases (mem_insertDesc y r xs).mp hy with rfl | hy'
      · omega
      · exact hx y hy'

theorem sortDesc_aux_pairwise :
    ∀ (l acc : List RegionalData),
      acc.Pairwise (fun a b => b.athletes ≤ a.athletes) →
      (l.foldl (fun acc r => insertDesc r acc) acc).Pairwise
        (fun a b => b.athletes ≤ a.athletes) := by
  intro l
  induction l with
  | nil =>
    intro acc h
    simpa using h
  | cons r t ih =>
    intro acc h
    simp only [List.foldl_cons]
    exact ih _ (insertDesc_pairwise r acc h)

theorem sortDesc_pairwise (l : List RegionalData) :
    (sortDesc l).Pairwise (fun a b => b.athletes ≤ a.athletes) :=
  sortDesc_aux_pairwise l [] (by simp)

theorem filter_insertDesc (k : ℕ) (r : RegionalData) (l : List RegionalData)
    (h : l.Pairwise (fun a b => b.athletes ≤ a.athletes)) :
    (insertDesc r l).filter (fun x => x.athletes == k) =
      if r.athletes = k then (l.filter (fun x => x.athletes == k)) ++ [r]
      else l.filter (fun x => x.athletes == k) := by
  induction l with
  | nil =>
    by_cases hr : r.athletes = k <;>
      simp [insertDesc, List.filter_cons, List.filter_nil, hr]
  | cons x xs ih =>
    rw [List.pairwise_cons] at h
    obtain ⟨hx, hxs⟩ := h
    rw [insertDesc]
    split
    · rename_i hlt
      by_cases hr : r.athletes = k
      · have hnil : (x :: xs).filter (fun y => y.athletes == k) = [] := by
          apply List.filter_eq_nil_iff.mpr
          intro y hy
          rcases List.mem_cons.mp hy with rfl | hy'
          · simp
            omega
          · have := hx y hy'
            simp
            omega
        rw [if_pos hr, hnil, List.filter_cons, hnil]
        simp [hr]
      · rw [if_neg hr]
        simp [List.filter_cons, hr]
    · rename_i hge
      rw [List.filter_cons, ih hxs]
      by_cases hxk : x.athletes = k <;> by_cases hr : r.athletes = k <;>
        simp [List.filter_cons, hxk, hr]

theorem filter_foldl_insert (k : ℕ) :
    ∀ (l acc : List RegionalData),
      acc.Pairwise (fun a b => b.athletes ≤ a.athletes) →
      (l.foldl (fun acc r => insertDesc r acc) acc).filter (fun x => x.athletes == k) =
        (acc.filter (fun x => x.athletes == k)) ++ l.filter (fun x => x.athletes == k) := by
  intro l
  induction l with
  | nil =>
    intro acc h
    simp
  | cons r t ih =>
    intro acc h
    simp only [List.foldl_cons]
    rw [ih _ (insertDesc_pairwise r acc h), filter_insertDesc k r acc h,
      List.filter_cons]
    by_cases hr : r.athletes = k <;> simp [hr]

theorem sortDesc_filter (k : ℕ) (l : List RegionalData) :
    (sortDesc l).filter (fun x => x.athletes == k) =
      l.filter (fun x => x.athletes == k) := by
  rw [sortDesc]
  simpa using filter_foldl_insert k l [] (by simp)

theorem mem_sortDesc_aux :
    ∀ (l acc : List RegionalData) (y : RegionalData),
      (y ∈ l.foldl (fun acc r => insertDesc r acc) acc ↔ y ∈ acc ∨ y ∈ l) := by
  intro l
  induction l with
  | nil =>
    intro acc y
    simp
  | cons r t ih =>
    intro acc y
    simp only [List.foldl_cons]
    rw [ih, mem_insertDesc]
    simp [List.mem_cons]
    tauto

theorem mem_sortDesc (l : List RegionalData) (y : RegionalData) :
    y ∈ sortDesc l ↔ y ∈ l := by
  rw [sortDesc]
  simpa using mem_sortDesc_aux l [] y

theorem length_sortDesc_aux :
    ∀ (l acc : List RegionalData),
      (l.foldl (fun acc r => insertDesc r acc) acc).length = acc.length + l.length := by
  intro l
  induction l with
  | nil =>
    intro acc
    simp
  | cons r t ih =>
    intro acc
    simp only [List.foldl_cons]
    rw [ih, length_insertDesc]
    simp only [List.length_cons]
    omega

theorem length_sortDesc (l : List RegionalData) : (sortDesc l).length = l.length := by
  rw [sortDesc]
  simpa using length_sortDesc_aux l []

theorem mem_insertAsc (y r : RegionalData) (l : List RegionalData) :
    y ∈ insertAsc r l ↔ y = r ∨ y ∈ l := by
  induction l with
  | nil => simp [insertAsc]
  | cons x xs ih =>
    rw [insertAsc]
    split
    · simp [List.mem_cons]
    · simp only [List.mem_cons, ih]
      tauto

theorem mem_sortByIndexAsc_aux :
    ∀ (l acc : List RegionalData) (y : RegionalData),
      (y ∈ l.foldl (fun acc r => insertAsc r acc) acc ↔ y ∈ acc ∨ y ∈ l) := by
  intro l
  induction l with
  | nil =>
    intro acc y
    simp
  | cons r t ih =>
    intro acc y
    simp only [List.foldl_cons]
    rw [ih, mem_insertAsc]
    simp [List.mem_cons]
    tauto

theorem mem_sortByIndexAsc (l : List RegionalData) (y : RegionalData) :
    y ∈ sortByIndexAsc l ↔ y ∈ l := by
  rw [sortByIndexAsc]
  simpa using mem_sortByIndexAsc_aux l [] y

theorem mem_jsEntries (own : List RegionalData) (y : RegionalData)
    (h : y ∈ jsEntries own) : y ∈ own := by
  rw [jsEntries] at h
  rcases List.mem_append.mp h with h1 | h2
  · exact List.mem_of_mem_filter ((mem_sortByIndexAsc _ _).mp h1)
  · exact List.mem_of_mem_filter h2

theorem addOwn_proto_free (ia : Bool) (loc : String) (hloc : isProtoKey loc = false) :
    ∀ (own : List RegionalData), (∀ r ∈ own, isProtoKey r.name = false) →
      ∀ r ∈ addOwn ia own loc, isProtoKey r.name = false := by
  intro own
  induction own with
  | nil =>
    intro h r hr
    rw [addOwn] at hr
    rcases List.mem_cons.mp hr with rfl | hr'
    · exact hloc
    · simp at hr'
  | cons x xs ih =>
    intro h r hr
    rw [addOwn] at hr
    split at hr
    · rcases List.mem_cons.mp hr with rfl | hr'
      · cases ia <;> exact h x (List.mem_cons_self _ _)
      · exact h r (List.mem_cons_of_mem _ hr')
    · rcases List.mem_cons.mp hr with rfl | hr'
      · exact h r (List.mem_cons_self _ _)
      · exact ih (fun q hq => h q (List.mem_cons_of_mem _ hq)) r hr'

theorem addCount_proto_free (ia : Bool) (own : List RegionalData) (loc : String)
    (h : ∀ r ∈ own, isProtoKey r.name = false) :
    ∀ r ∈ addCount ia own loc, isProtoKey r.name = false := by
  rw [addCount]
  split
  · exact h
  · rename_i hp
    exact addOwn_proto_free ia loc (by simpa using hp) own h

theorem foldl_addCount_proto_free (ia : Bool) :
    ∀ (l : List (Option String)) (acc : List RegionalData),
      (∀ r ∈ acc, isProtoKey r.name = false) →
      ∀ r ∈ l.foldl (fun acc x => addCount ia acc (effLocation x)) acc,
        isProtoKey r.name = false := by
  intro l
  induction l with
  | nil =>
    intro acc h
    simpa using h
  | cons x t ih =>
    intro acc h
    simp only [List.foldl_cons]
    exact ih _ (addCount_proto_free ia acc (effLocation x) h)

theorem regionalOwn_proto_free (athletes events : List (Option String)) :
    ∀ r ∈ regionalOwn athletes events, isProtoKey r.name = false := by
  rw [regionalOwn]
  exact foldl_addCount_proto_free false events _
    (foldl_addCount_proto_free true athletes [] (by simp))

/-- C5 counterexample: the claim's tie-break and membership assertions are
false of the program.  First, `Object.entries` enumerates array-index-like
keys before ordinary string keys, so for athletes located in "Accra" then
"1" (an athlete-count tie) the program emits "1" first, not the first-seen
order "Accra", "1".  Second, a location naming an `Object.prototype` member:
for a single event located in "toString", `!locationCounts["toString"]` sees
the inherited (truthy) method, no own entry is ever created, and the
region — though it has events, zero athletes, and a table of ≤ 10
regions — does not appear in the output at all. -/
theorem C5_counterexample :
    (fetchRegionalData [some "Accra", some "1"] []).map (fun r => r.name) =
      ["1", "Accra"] ∧
    (fetchRegionalData [some "Accra", some "1"] []).map (fun r => r.name) ≠
      ["Accra", "1"] ∧
    fetchRegionalData [] [some "toString"] = [] := by decide

/-- C5 amended: `fetchRegionalData` groups both collections by location
(default bucket "Unknown"), except that a location naming an
`Object.prototype` member never becomes an own entry of `locationCounts` and
is dropped from the output entirely; the table is enumerated in
`Object.entries` order (array-index-like keys first in ascending numeric
order, then the remaining keys in first-seen creation order); the result is
at most 10 entries, sorted non-increasing by athlete count with ties stable
in that enumeration order (for every count k, the k-count entries of the
result are a prefix of the k-count entries of the enumerated table); every
returned entry comes from the enumerated table — none has a prototype-member
name — and when the enumerated table has at most 10 regions every region in
it, including one with events but zero athletes, appears. -/
theorem C5_fetchRegionalData (athletes events : List (Option String)) :
    (fetchRegionalData athletes events).length ≤ 10 ∧
    (fetchRegionalData athletes events).Pairwise
      (fun a b => b.athletes ≤ a.athletes) ∧
    (∀ k : ℕ, ∃ t,
      ((fetchRegionalData athletes events).filter (fun x => x.athletes == k)) ++ t =
        (regionalEntries athletes events).filter (fun x => x.athletes == k)) ∧
    ((regionalEntries athletes events).length ≤ 10 →
      ∀ r ∈ regionalEntries athletes events, r ∈ fetchRegionalData athletes events) ∧
    (∀ r ∈ fetchRegionalData athletes events, r ∈ regionalEntries athletes events) ∧
    (∀ r ∈ fetchRegionalData athletes events, isProtoKey r.name = false) := by
  refine ⟨?_, ?_, ?_, ?_, ?_, ?_⟩
  · rw [fetchRegionalData]
    exact List.length_take_le _ _
  · rw [fetchRegionalData]
    exact (sortDesc_pairwise _).sublist (List.take_sublist _ _)
  · intro k
    refine ⟨((sortDesc (regionalEntries athletes events)).drop 10).filter
      (fun x => x.athletes == k), ?_⟩
    rw [fetchRegionalData, ← List.filter_append, List.take_append_drop,
      sortDesc_filter]
  · intro hlen r hr
    rw [fetchRegionalData, List.take_of_length_le (by rw [length_sortDesc]; exact hlen)]
    exact (mem_sortDesc _ _).mpr hr
  · intro r hr
    exact (mem_sortDesc _ _).mp (List.take_subset _ _ hr)
  · intro r hr
    have h1 : r ∈ regionalEntries athletes events :=
      (mem_sortDesc _ _).mp (List.take_subset _ _ hr)
    exact regionalOwn_proto_free athletes events r (mem_jsEntries _ _ h1)

theorem C5_fetchRegionalData_witness :
    ({ name := "Unknown", athletes := 0, events := 1 } : RegionalData) ∈
      fetchRegionalData [some "Accra"] [none] ∧
    ∃ t, ((fetchRegionalData [some "Accra"] [none]).filter
        (fun x => x.athletes == 0)) ++ t =
      (regionalEntries [some "Accra"] [none]).filter (fun x => x.athletes == 0) :=
  ⟨(C5_fetchRegionalData [some "Accra"] [none]).2.2.2.1 (by decide) _ (by decide),
   (C5_fetchRegionalData [some "Accra"] [none]).2.2.1 0⟩

/-! ## Subscription registry: C8, C9 -/

theorem find?_filter_ne (l : List (String × ℕ)) (sid : String) :
    (l.filter (fun p => p.1 ≠ sid)).find? (fun p => p.1 == sid) = none := by
  induction l with
  | nil => rfl
  | cons x xs ih =>
    rw [List.filter_cons]
    by_cases hx : x.1 = sid
    · simp [hx, ih]
    · simp [List.find?_cons, hx, ih]

/-- C8 counterexample: two subscriptions registered in the same millisecond
(`Date.now()` collision) receive the same identifier `analytics-5`; the
second `subscriptions.set` overwrites the first entry, and invoking the FIRST
teardown handle removes the second subscription's registry entry and detaches
the second subscription's listener (while the first listener stays attached),
so the handles are not independent. -/
theorem C8_counterexample :
    (subscribeAnalytics emptySubWorld 5).2 =
      (subscribeAnalytics (subscribeAnalytics emptySubWorld 5).1 5).2 ∧
    registryLookup (subscribeAnalytics (subscribeAnalytics emptySubWorld 5).1 5).1
      (subscribeAnalytics (subscribeAnalytics emptySubWorld 5).1 5).2 = some 1 ∧
    registryLookup
      (runCleanup (subscribeAnalytics (subscribeAnalytics emptySubWorld 5).1 5).1
        (subscribeAnalytics emptySubWorld 5).2)
      (subscribeAnalytics (subscribeAnalytics emptySubWorld 5).1 5).2 = none ∧
    1 ∉ (runCleanup (subscribeAnalytics (subscribeAnalytics emptySubWorld 5).1 5).1
        (subscribeAnalytics emptySubWorld 5).2).attached ∧
    0 ∈ (runCleanup (subscribeAnalytics (subscribeAnalytics emptySubWorld 5).1 5).1
        (subscribeAnalytics emptySubWorld 5).2).attached := by decide

/-- C8 amended: two subscriptions whose registration identifiers differ
(i.e. registered at distinct `Date.now()` values, which yield distinct
`analytics-` identifier strings) are independent: invoking the first handle
leaves the second subscription's registry entry and attached listener
untouched, while removing the first subscription's entry and detaching its
listener. -/
theorem C8_independent (w : SubWorld) (now1 now2 : ℕ)
    (h : subId now1 ≠ subId now2) :
    registryLookup
      (runCleanup (subscribeAnalytics (subscribeAnalytics w now1).1 now2).1
        (subscribeAnalytics w now1).2)
      (subscribeAnalytics (subscribeAnalytics w now1).1 now2).2 =
      registryLookup (subscribeAnalytics (subscribeAnalytics w now1).1 now2).1
        (subscribeAnalytics (subscribeAnalytics w now1).1 now2).2 ∧
    registryLookup (subscribeAnalytics (subscribeAnalytics w now1).1 now2).1
      (subscribeAnalytics (subscribeAnalytics w now1).1 now2).2 =
        some (w.nextListener + 1) ∧
    w.nextListener + 1 ∈
      (runCleanup (subscribeAnalytics (subscribeAnalytics w now1).1 now2).1
        (subscribeAnalytics w now1).2).attached ∧
    registryLookup
      (runCleanup (subscribeAnalytics (subscribeAnalytics w now1).1 now2).1
        (subscribeAnalytics w now1).2)
      (subscribeAnalytics w now1).2 = none ∧
    w.nextListener ∉
      (runCleanup (subscribeAnalytics (subscribeAnalytics w now1).1 now2).1
        (subscribeAnalytics w now1).2).attached := by
  have h' : subId now2 ≠ subId now1 := Ne.symm h
  refine ⟨?_, ?_, ?_, ?_, ?_⟩ <;>
    simp [subscribeAnalytics, runCleanup, registryLookup, List.find?_cons,
      List.filter_cons, h, h', find?_filter_ne, List.mem_filter]

theorem C8_independent_witness :
    registryLookup (subscribeAnalytics (subscribeAnalytics emptySubWorld 5).1 6).1
      (subscribeAnalytics (subscribeAnalytics emptySubWorld 5).1 6).2 = some 1 ∧
    registryLookup
      (runCleanup (subscribeAnalytics (subscribeAnalytics emptySubWorld 5).1 6).1
        (subscribeAnalytics emptySubWorld 5).2)
      (subscribeAnalytics emptySubWorld 5).2 = none :=
  ⟨(C8_independent emptySubWorld 5 6 (by decide)).2.1,
   (C8_independent emptySubWorld 5 6 (by decide)).2.2.2.1⟩

/-- C9: a returned cleanup handle removes the subscription's registry entry
and detaches the listener stored there, and it is idempotent: invoking the
same handle a second time is a no-op leaving the world unchanged (the detach
is not invoked again, the registry is unchanged). -/
theorem C9_cleanup_idempotent (w : SubWorld) (sid : String) :
    (∀ lid, registryLookup w sid = some lid →
      registryLookup (runCleanup w sid) sid = none ∧
      lid ∉ (runCleanup w sid).attached) ∧
    runCleanup (runCleanup w sid) sid = runCleanup w sid := by
  constructor
  · intro lid hl
    rw [registryLookup] at hl
    obtain ⟨p, hp, hp2⟩ := Option.map_eq_some'.mp hl
    rw [runCleanup, hp]
    constructor
    · rw [registryLookup]
      rw [show ({ w with
            attached := w.attached.filter (fun l => l ≠ p.2),
            registry := w.registry.filter (fun q => q.1 ≠ sid) } : SubWorld).registry =
          w.registry.filter (fun q => q.1 ≠ sid) from rfl]
      rw [find?_filter_ne]
      rfl
    · intro hmem
      rw [show ({ w with
            attached := w.attached.filter (fun l => l ≠ p.2),
            registry := w.registry.filter (fun q => q.1 ≠ sid) } : SubWorld).attached =
          w.attached.filter (fun l => l ≠ p.2) from rfl] at hmem
      rw [List.mem_filter, hp2] at hmem
      simp at hmem
  · cases hf : w.registry.find? (fun p => p.1 == sid) with
    | none =>
      have hw : runCleanup w sid = w := by rw [runCleanup, hf]
      rw [hw, hw]
    | some entry =>
      have h1 : runCleanup w sid =
          { w with attached := w.attached.filter (fun l => l ≠ entry.2),
                   registry := w.registry.filter (fun q => q.1 ≠ sid) } := by
        rw [runCleanup, hf]
      have h2 : (runCleanup w sid).registry.find? (fun p => p.1 == sid) = none := by
        rw [h1]
        exact find?_filter_ne _ _
      rw [runCleanup, h2]

theorem C9_cleanup_idempotent_witness :
    registryLookup (runCleanup ⟨1, [0], [("analytics-5", 0)]⟩ "analytics-5")
      "analytics-5" = none ∧
    0 ∉ (runCleanup ⟨1, [0], [("analytics-5", 0)]⟩ "analytics-5").attached ∧
    runCleanup (runCleanup ⟨1, [0], [("analytics-5", 0)]⟩ "analytics-5")
      "analytics-5" = runCleanup ⟨1, [0], [("analytics-5", 0)]⟩ "analytics-5" :=
  ⟨((C9_cleanup_idempotent ⟨1, [0], [("analytics-5", 0)]⟩ "analytics-5").1 0 (by decide)).1,
   ((C9_cleanup_idempotent ⟨1, [0], [("analytics-5", 0)]⟩ "analytics-5").1 0 (by decide)).2,
   (C9_cleanup_idempotent ⟨1, [0], [("analytics-5", 0)]⟩ "analytics-5").2⟩
